import Mathlib

/-!
Verification of the Centria letter STL generator
(generate_letter_library.py).

The script turns a letter glyph into a 3D-printable mesh: rasterize the
glyph, extract the longest boundary contour, downsample it, extrude it
into a solid, and export one STL per (letter, variant) pair.

This file shallowly embeds the computational core of that script:
the contour selection/downsampling of _extract_contour, the
center/scale/flip transform and vertex/face construction of
_extrude_contour, and the per-variant batch loop of
generate_letter_variants, including its error isolation and output-path
scheme.  2D image coordinates are modelled as exact rationals; the
external collaborators (font rasterizer, skimage contour tracer, trimesh
repair/export) are treated as the environment: the contour tracer's
output is a parameter, and exceptions arising inside mesh build or
export are modelled by oracles returning an optional error message.
-/

namespace LetterGen

/-- A 2D contour point, a (row, column) pair as returned by the contour
tracer on the glyph bitmap. -/
abbrev Point : Type := ℚ × ℚ

/-- A 3D vertex. -/
abbrev Vertex : Type := ℚ × ℚ × ℚ

/-- A triangular face: an index triple into the vertex list. -/
abbrev Face : Type := Nat × Nat × Nat

/-- A triangle mesh as the script assembles it: the vertex array and the
face array handed to the mesh library. -/
structure Mesh where
  vertices : List Vertex
  faces : List Face
deriving DecidableEq

/-- Helper for the Python slice xs[::step]: skip counts how many further
elements must be dropped before the next element is kept. -/
def sliceAux {α : Type} (step : Nat) : Nat → List α → List α
  | _, [] => []
  | 0, x :: xs => x :: sliceAux step (step - 1) xs
  | k + 1, _ :: xs => sliceAux step k xs

/-- Python slice xs[::step] for step >= 1: keep every step-th element,
starting from index 0. -/
def takeEvery {α : Type} (step : Nat) (l : List α) : List α :=
  sliceAux step 0 l

/-- Python max(contours, key=len): the first contour of maximal length
(ties keep the earlier one).  Empty input yields the empty contour. -/
def pickLongest : List (List Point) → List Point
  | [] => []
  | c :: cs => cs.foldl (fun best x => if best.length < x.length then x else best) c

/-- _extract_contour, from the point where the contour tracer has
produced its list of contours: return [] when no contour was found,
otherwise pick the longest contour and downsample it with stride
max(1, len // 100). -/
def extractContour (contours : List (List Point)) : List Point :=
  match contours with
  | [] => []
  | _ :: _ =>
    let main := pickLongest contours
    let step := max 1 (main.length / 100)
    takeEvery step main

/-- coords.mean(axis=0): the componentwise centroid of the polyline. -/
def centroid (pts : List Point) : Point :=
  ((pts.map Prod.fst).sum / (pts.length : ℚ), (pts.map Prod.snd).sum / (pts.length : ℚ))

/-- coords -= coords.mean(axis=0): translate so the centroid is the origin. -/
def centered (pts : List Point) : List Point :=
  pts.map (fun p => (p.1 - (centroid pts).1, p.2 - (centroid pts).2))

/-- np.max(np.abs(coords)): the largest absolute coordinate value.
The fold starts at 0, which agrees with numpy on every list of absolute
values and makes the empty case total. -/
def maxExtent (pts : List Point) : ℚ :=
  pts.foldr (fun p m => max (max |p.1| |p.2|) m) 0

/-- The center-and-scale step of _extrude_contour: center on the
centroid, then, when the maximum absolute extent is positive, multiply
every coordinate by 40 / extent; otherwise leave the centered points
unchanged. -/
def normalizeCoords (pts : List Point) : List Point :=
  let c := centered pts
  let m := maxExtent c
  if 0 < m then c.map (fun p => (p.1 * (40 / m), p.2 * (40 / m))) else c

/-- coords[:, 1] = -coords[:, 1]: after centering and scaling the script
negates the SECOND component of every point (index 1, the image column). -/
def transformCoords (pts : List Point) : List Point :=
  (normalizeCoords pts).map (fun p => (p.1, -p.2))

/-- The side-wall faces built by the loop over i in range(n_points - 1):
two triangles per consecutive bottom/top pair. -/
def sideFaces (n : Nat) : List Face :=
  (List.range (n - 1)).flatMap (fun i => [(i, i + 1, i + 1 + n), (i, i + 1 + n, i + n)])

/-- The two wrap faces that close the side wall loop. -/
def wrapFaces (n : Nat) : List Face :=
  [(n - 1, 0, n), (n - 1, n, 2 * n - 1)]

/-- The bottom cap: fan triangulation [0, i+1, i] for i in range(1, n-1),
reindexed by j = i - 1. -/
def bottomCapFaces (n : Nat) : List Face :=
  (List.range (n - 2)).map (fun j => (0, j + 2, j + 1))

/-- The top cap: fan triangulation [n, n+i, n+i+1] for i in range(1, n-1),
reindexed by j = i - 1. -/
def topCapFaces (n : Nat) : List Face :=
  (List.range (n - 2)).map (fun j => (n, n + j + 1, n + j + 2))

/-- _extrude_contour: transform the polyline, then build the bottom ring
at z = 0, the top ring at z = height, the side wall, the two wrap faces
and the two cap fans, in exactly the order the script appends them.
The subsequent trimesh fix_normals / fill_holes repair pass is an
external collaborator and is not part of this construction. -/
def extrudeContour (pts : List Point) (height : ℚ) : Mesh :=
  let coords := transformCoords pts
  let n := coords.length
  { vertices := coords.map (fun p => (p.1, p.2, (0 : ℚ))) ++
      coords.map (fun p => (p.1, p.2, height)),
    faces := sideFaces n ++ wrapFaces n ++ bottomCapFaces n ++ topCapFaces n }

/-- The uniform mod-n description of the whole side wall: for every i in
range(n), the two triangles on the segment from i to (i+1) mod n.  Used
to state that the wrap faces follow the same index pattern as the
interior side faces. -/
def sideLoopFaces (n : Nat) : List Face :=
  (List.range n).flatMap
    (fun i => [(i, (i + 1) % n, (i + 1) % n + n), (i, (i + 1) % n + n, i + n)])

/-- create_letter_mesh from the point where the contour tracer has run on
the thresholded bitmap: extract the contour, return no mesh when it has
fewer than 3 points (the warning branch), otherwise extrude it. -/
def createLetterMesh (contours : List (List Point)) (thickness : ℚ) : Option Mesh :=
  let pts := extractContour contours
  if pts.length < 3 then none else some (extrudeContour pts thickness)

/-- The VARIANTS table: name and thickness of the four product variants,
in the order the per-letter loop visits them. -/
def VARIANTS : List (String × ℚ) :=
  [("pin", 7 / 2), ("magnet", 9 / 2), ("keyring", 11 / 2), ("cake_mould", 10)]

/-- The default output root directory of LetterSTLGenerator. -/
def defaultOutputDir : String := "Centria_3D_Models/Letters_Library"

/-- The output path output_dir / variant / Letter_letter_variant.stl. -/
def outputFile (dir variant letter : String) : String :=
  dir ++ "/" ++ variant ++ "/" ++ "Letter_" ++ letter ++ "_" ++ variant ++ ".stl"

/-- The directories created by the generator's constructor: the output
root and one subdirectory per variant. -/
def createdDirs (dir : String) : List String :=
  dir :: VARIANTS.map (fun v => dir ++ "/" ++ v.1)

/-- The observable outcome of one (letter, variant) iteration of
generate_letter_variants: the insufficient-points skip, a successful
export with its path, or a caught exception with its message. -/
inductive Outcome where
  | failed : Outcome
  | ok : String → Outcome
  | error : String → Outcome
deriving DecidableEq

/-- The path written by an iteration, when it succeeded. -/
def okPath : Outcome → Option String
  | .ok p => some p
  | _ => none

/-- One iteration of the per-variant loop, inside its try/except.
excMesh says whether an exception is raised while building the mesh for
a given thickness, excExport whether one is raised while exporting to a
given path; either way the exception is caught and becomes an error
outcome.  A mesh of none is the FAILED-and-continue branch. -/
def processVariant (dir letter : String) (contours : List (List Point))
    (excMesh : ℚ → Option String) (excExport : String → Option String)
    (v : String × ℚ) : Outcome :=
  match excMesh v.2 with
  | some e => .error e
  | none =>
    match createLetterMesh contours v.2 with
    | none => .failed
    | some _ =>
      let path := outputFile dir v.1 letter
      match excExport path with
      | some e => .error e
      | none => .ok path

/-- generate_letter_variants: fold the per-variant loop over the VARIANTS
table, accumulating the outcome of every iteration and the list of files
written so far (a successful export appends its path; failures and
caught exceptions leave the written files untouched). -/
def runVariants (dir letter : String) (contours : List (List Point))
    (excMesh : ℚ → Option String) (excExport : String → Option String) :
    List Outcome × List String :=
  VARIANTS.foldl
    (fun acc v =>
      let o := processVariant dir letter contours excMesh excExport v
      (acc.1 ++ [o], match okPath o with | some p => acc.2 ++ [p] | none => acc.2))
    ([], [])

/-! ## Helper lemmas -/

/-- Length of the slice helper: ceiling division of the remaining
length, shifted by the pending skip count. -/
theorem sliceAux_length {α : Type} (step : Nat) (hs : 1 ≤ step) (l : List α) :
    ∀ k : Nat, (sliceAux step k l).length = (l.length - k + step - 1) / step := by
  induction l with
  | nil =>
    intro k
    simp only [sliceAux, List.length_nil]
    rw [Nat.div_eq_of_lt (by omega)]
  | cons x xs ih =>
    intro k
    match k with
    | 0 =>
      simp only [sliceAux, List.length_cons]
      rw [ih (step - 1)]
      rcases le_or_lt (step - 1) xs.length with h | h
      · have h1 : xs.length - (step - 1) + step - 1 = xs.length := by omega
        have h2 : xs.length + 1 - 0 + step - 1 = xs.length + step := by omega
        rw [h1, h2, Nat.add_div_right _ (by omega)]
      · have h1 : xs.length - (step - 1) + step - 1 = step - 1 := by omega
        have h2 : xs.length + 1 - 0 + step - 1 = xs.length + step := by omega
        rw [h1, h2, Nat.add_div_right _ (by omega),
          Nat.div_eq_of_lt (by omega), Nat.div_eq_of_lt (by omega)]
    | k + 1 =>
      simp only [sliceAux, List.length_cons]
      rw [ih k]
      congr 1
      omega

/-- Length of the Python slice xs[::step]: ceiling of length / step. -/
theorem takeEvery_length {α : Type} (step : Nat) (hs : 1 ≤ step) (l : List α) :
    (takeEvery step l).length = (l.length + step - 1) / step := by
  have h := sliceAux_length step hs l 0
  simpa [takeEvery] using h

/-- The downsampled length is at most 199 for every input length, with
the stride max(1, L / 100) the extractor uses. -/
theorem stride_length_bound (L : Nat) :
    (L + max 1 (L / 100) - 1) / max 1 (L / 100) ≤ 199 := by
  rcases Nat.eq_zero_or_pos L with h0 | hL
  · subst h0
    simp
  · have hs : 1 ≤ max 1 (L / 100) := le_max_left _ _
    have hnum : L + max 1 (L / 100) - 1 = (L - 1) + max 1 (L / 100) := by omega
    rw [hnum, Nat.add_div_right _ (by omega)]
    rcases le_or_lt L 199 with hsm | hbg
    · have hq : L / 100 ≤ 1 := by omega
      have hmax : max 1 (L / 100) = 1 := Nat.max_eq_left hq
      rw [hmax]
      omega
    · have h2 : 2 ≤ L / 100 := by omega
      have hmax : max 1 (L / 100) = L / 100 := Nat.max_eq_right (by omega)
      rw [hmax]
      have hmod := Nat.div_add_mod L 100
      have hlt : L % 100 < 100 := Nat.mod_lt _ (by norm_num)
      have hle : L - 1 ≤ 100 * (L / 100) + 98 := by omega
      have hstep : (L - 1) / (L / 100) ≤ (100 * (L / 100) + 98) / (L / 100) :=
        Nat.div_le_div_right hle
      have heq : (100 * (L / 100) + 98) / (L / 100) = 100 + 98 / (L / 100) := by
        rw [Nat.mul_comm 100 (L / 100)]
        exact Nat.mul_add_div (by omega) 100 98
      have h98 : 98 / (L / 100) ≤ 98 / 2 := Nat.div_le_div_left h2 (by norm_num)
      omega

/-- The transform steps preserve the point count. -/
theorem transformCoords_length (pts : List Point) :
    (transformCoords pts).length = pts.length := by
  simp only [transformCoords, normalizeCoords, centered, List.length_map]
  split <;> simp

/-- Length of a flatMap that emits two faces per index. -/
theorem flatMap_pair_length {α : Type} (k : Nat) (f g : Nat → α) :
    ((List.range k).flatMap (fun i => [f i, g i])).length = 2 * k := by
  induction k with
  | zero => simp
  | succ m ih =>
    rw [List.range_succ, List.flatMap_append]
    simp only [List.length_append, ih]
    simp
    omega

/-- The interior side faces together with the two wrap faces follow one
uniform pattern: for every i below n, the two triangles on the segment
from i to (i + 1) mod n. -/
theorem side_wrap_eq (n : Nat) (hn : 1 ≤ n) :
    sideFaces n ++ wrapFaces n = sideLoopFaces n := by
  obtain ⟨m, rfl⟩ : ∃ m, n = m + 1 := ⟨n - 1, by omega⟩
  unfold sideFaces wrapFaces sideLoopFaces
  rw [List.range_succ, List.flatMap_append]
  congr 1
  · apply List.flatMap_congr
    intro i hi
    have : i < m := List.mem_range.mp hi
    have hmod : (i + 1) % (m + 1) = i + 1 := Nat.mod_eq_of_lt (by omega)
    simp [hmod]
  · simp [Nat.mod_self, Prod.ext_iff]
    omega

/-- Summing a constant shift over a list of rationals. -/
theorem sum_map_sub (pts : List Point) (f : Point → ℚ) (c : ℚ) :
    (pts.map (fun p => f p - c)).sum = (pts.map f).sum - pts.length * c := by
  induction pts with
  | nil => simp
  | cons p l ih =>
    simp only [List.map_cons, List.sum_cons, ih, List.length_cons]
    push_cast
    ring

/-- The maximum absolute extent is never negative. -/
theorem maxExtent_nonneg (pts : List Point) : 0 ≤ maxExtent pts := by
  induction pts with
  | nil => simp [maxExtent]
  | cons p l ih =>
    simp only [maxExtent, List.foldr_cons] at *
    exact le_trans ih (le_max_right _ _)

/-- Scaling every coordinate by a nonnegative factor scales the maximum
absolute extent by that factor. -/
theorem maxExtent_map_mul (pts : List Point) (k : ℚ) (hk : 0 ≤ k) :
    maxExtent (pts.map (fun p => (p.1 * k, p.2 * k))) = maxExtent pts * k := by
  induction pts with
  | nil => simp [maxExtent]
  | cons p l ih =>
    simp only [maxExtent, List.map_cons, List.foldr_cons] at *
    rw [ih, abs_mul, abs_mul, abs_of_nonneg hk,
      ← max_mul_of_nonneg _ _ hk, ← max_mul_of_nonneg _ _ hk]

/-- Centering preserves the point count. -/
theorem centered_length (pts : List Point) : (centered pts).length = pts.length := by
  simp [centered]

/-- After subtracting the centroid, the centroid of the result is the
origin (for a non-empty polyline). -/
theorem centroid_centered (pts : List Point) (h : pts.length ≠ 0) :
    centroid (centered pts) = ((0 : ℚ), (0 : ℚ)) := by
  have hn : (pts.length : ℚ) ≠ 0 := Nat.cast_ne_zero.mpr h
  have hfst : (centered pts).map Prod.fst = pts.map (fun p => p.1 - (centroid pts).1) := by
    simp [centered]
  have hsnd : (centered pts).map Prod.snd = pts.map (fun p => p.2 - (centroid pts).2) := by
    simp [centered]
  have h1 : ((centered pts).map Prod.fst).sum = 0 := by
    rw [hfst, sum_map_sub pts Prod.fst ((centroid pts).1)]
    simp only [centroid]
    field_simp
  have h2 : ((centered pts).map Prod.snd).sum = 0 := by
    rw [hsnd, sum_map_sub pts Prod.snd ((centroid pts).2)]
    simp only [centroid]
    field_simp
  simp [centroid, h1, h2]

/-- When the extent of the centered polyline is positive, the scaling
step makes the maximum absolute coordinate exactly 40. -/
theorem maxExtent_normalize (pts : List Point) (hm : 0 < maxExtent (centered pts)) :
    maxExtent (normalizeCoords pts) = 40 := by
  simp only [normalizeCoords]
  rw [if_pos hm, maxExtent_map_mul _ _ (div_nonneg (by norm_num) (le_of_lt hm)),
    mul_comm, div_mul_cancel₀]
  exact ne_of_gt hm

/-- Unrolling the per-variant fold: the accumulated outcome list is one
outcome per variant in table order, and the accumulated written files
are exactly the successful export paths. -/
theorem foldl_outcome_acc (f : String × ℚ → Outcome) (vs : List (String × ℚ)) :
    ∀ (a : List Outcome) (b : List String),
      (vs.foldl (fun acc v =>
        let o := f v
        (acc.1 ++ [o], match okPath o with | some p => acc.2 ++ [p] | none => acc.2))
        (a, b)) =
      (a ++ vs.map f, b ++ (vs.map f).filterMap okPath) := by
  induction vs with
  | nil => intro a b; simp
  | cons v t ih =>
    intro a b
    simp only [List.foldl_cons, List.map_cons, List.filterMap_cons]
    rw [ih]
    cases hov : okPath (f v) with
    | none => simp [hov]
    | some p => simp [hov]

/-! ## Claim theorems -/

/-- C1: for every contour polyline of n >= 3 points, the extruded mesh's
vertex list is exactly the n bottom-ring vertices followed by the n
top-ring vertices, 2 * n vertices in total and nothing else. -/
theorem extrude_vertex_ring_count (pts : List Point) (h : ℚ) (_hn : 3 ≤ pts.length) :
    (extrudeContour pts h).vertices =
      (transformCoords pts).map (fun p => (p.1, p.2, (0 : ℚ))) ++
        (transformCoords pts).map (fun p => (p.1, p.2, h)) ∧
    (extrudeContour pts h).vertices.length = 2 * pts.length := by
  refine ⟨rfl, ?_⟩
  simp [extrudeContour, transformCoords_length]
  omega

theorem extrude_vertex_ring_count_witness :
    3 ≤ ([((0 : ℚ), (0 : ℚ)), (0, 3), (3, 0)] : List Point).length ∧
    (extrudeContour [((0 : ℚ), (0 : ℚ)), (0, 3), (3, 0)] 5).vertices.length = 2 * 3 := by
  refine ⟨by decide, ?_⟩
  have h := (extrude_vertex_ring_count [((0 : ℚ), (0 : ℚ)), (0, 3), (3, 0)] 5 (by decide)).2
  simpa using h

/-- C2: for a non-empty contour list the extractor downsamples the
longest contour with the fixed stride max(1, len / 100), and the
resulting point count never exceeds 199, a fixed bound (at most twice
the nominal target of about 100, attained at input length 199). -/
theorem extract_downsample_stride_bound (cs : List (List Point)) (hcs : cs ≠ []) :
    extractContour cs =
      takeEvery (max 1 ((pickLongest cs).length / 100)) (pickLongest cs) ∧
    (extractContour cs).length ≤ 199 := by
  obtain ⟨c, t, rfl⟩ : ∃ c t, cs = c :: t := by
    cases cs with
    | nil => exact absurd rfl hcs
    | cons c t => exact ⟨c, t, rfl⟩
  have hs : 1 ≤ max 1 ((pickLongest (c :: t)).length / 100) := le_max_left _ _
  refine ⟨rfl, ?_⟩
  have he : extractContour (c :: t) =
      takeEvery (max 1 ((pickLongest (c :: t)).length / 100)) (pickLongest (c :: t)) := rfl
  rw [he, takeEvery_length _ hs]
  exact stride_length_bound _

theorem extract_downsample_stride_bound_witness :
    ([[((0 : ℚ), (0 : ℚ)), (0, 3), (3, 0)]] : List (List Point)) ≠ [] ∧
    (extractContour [[((0 : ℚ), (0 : ℚ)), (0, 3), (3, 0)]]).length ≤ 199 :=
  ⟨List.cons_ne_nil _ _,
    (extract_downsample_stride_bound [[((0 : ℚ), (0 : ℚ)), (0, 3), (3, 0)]]
      (List.cons_ne_nil _ _)).2⟩

/-- C3: the extruder first translates the polyline so its centroid is
the origin; then, when the maximum absolute extent of the centered
points is positive, it scales them so the maximum absolute coordinate
is exactly 40, and when the extent is zero the scaling step is skipped
entirely (so no division by zero occurs). -/
theorem extrude_center_scale (pts : List Point) (hn : 3 ≤ pts.length) :
    centroid (centered pts) = ((0 : ℚ), (0 : ℚ)) ∧
    (0 < maxExtent (centered pts) → maxExtent (normalizeCoords pts) = 40) ∧
    (maxExtent (centered pts) = 0 → normalizeCoords pts = centered pts) := by
  refine ⟨centroid_centered pts (by omega), fun hm => maxExtent_normalize pts hm,
    fun hz => ?_⟩
  simp only [normalizeCoords]
  rw [if_neg (by simp [hz])]

theorem extrude_center_scale_witness :
    3 ≤ ([((0 : ℚ), (0 : ℚ)), (0, 3), (3, 0)] : List Point).length ∧
    0 < maxExtent (centered [((0 : ℚ), (0 : ℚ)), (0, 3), (3, 0)]) ∧
    maxExtent (normalizeCoords [((0 : ℚ), (0 : ℚ)), (0, 3), (3, 0)]) = 40 := by
  have hm : 0 < maxExtent (centered [((0 : ℚ), (0 : ℚ)), (0, 3), (3, 0)]) := by
    norm_num [maxExtent, centered, centroid]
  exact ⟨by decide, hm, (extrude_center_scale _ (by decide)).2.1 hm⟩

/-- C4, counterexample: the claim says the image row coordinate
(component 0) is negated, but on the concrete triangle contour
[(0,0), (0,3), (3,0)] the extruder's transform negates component 1 (the
image column): the result is the column-negated point list and differs
from what negating the row coordinate would produce. -/
theorem flip_axis_counterexample :
    transformCoords [((0 : ℚ), (0 : ℚ)), (0, 3), (3, 0)] =
      [(-20, 20), (-20, -40), (40, 20)] ∧
    transformCoords [((0 : ℚ), (0 : ℚ)), (0, 3), (3, 0)] ≠
      (normalizeCoords [((0 : ℚ), (0 : ℚ)), (0, 3), (3, 0)]).map
        (fun p => (-p.1, p.2)) := by
  have h1 : normalizeCoords [((0 : ℚ), (0 : ℚ)), (0, 3), (3, 0)] =
      [(-20, -20), (-20, 40), (40, -20)] := by
    norm_num [normalizeCoords, centered, centroid, maxExtent]
  constructor
  · rw [transformCoords, h1]
    norm_num
  · rw [transformCoords, h1]
    norm_num

/-- C4, amended: after centering and scaling the extruder negates the
SECOND component of each (row, column) point, i.e. the image column
(horizontal) coordinate, leaving the row coordinate unchanged; the
rings of the resulting mesh are built from these column-negated
points. -/
theorem extrude_flips_column_axis (pts : List Point) (h : ℚ) (_hn : 3 ≤ pts.length) :
    transformCoords pts = (normalizeCoords pts).map (fun q => (q.1, -q.2)) ∧
    (extrudeContour pts h).vertices =
      (normalizeCoords pts).map (fun q => (q.1, -q.2, (0 : ℚ))) ++
        (normalizeCoords pts).map (fun q => (q.1, -q.2, h)) := by
  refine ⟨rfl, ?_⟩
  show (transformCoords pts).map (fun p => (p.1, p.2, (0 : ℚ))) ++
      (transformCoords pts).map (fun p => (p.1, p.2, h)) = _
  rw [transformCoords, List.map_map, List.map_map]
  rfl

theorem extrude_flips_column_axis_witness :
    3 ≤ ([((0 : ℚ), (0 : ℚ)), (0, 3), (3, 0)] : List Point).length ∧
    transformCoords [((0 : ℚ), (0 : ℚ)), (0, 3), (3, 0)] =
      (normalizeCoords [((0 : ℚ), (0 : ℚ)), (0, 3), (3, 0)]).map
        (fun q => (q.1, -q.2)) :=
  ⟨by decide,
    (extrude_flips_column_axis [((0 : ℚ), (0 : ℚ)), (0, 3), (3, 0)] 5 (by decide)).1⟩

/-- C5: the extruder builds a bottom ring at z = 0 and a top ring at
z = height, each ordered as the (transformed) input polyline; the side
wall consists of exactly 2 * n triangles, two per consecutive
bottom/top pair, and the two wrap faces that close the loop follow the
same index pattern as the interior faces, namely the pattern of
sideLoopFaces with the successor index taken mod n. -/
theorem extrude_rings_and_side_faces (pts : List Point) (h : ℚ) (hn : 3 ≤ pts.length) :
    (extrudeContour pts h).vertices =
      (transformCoords pts).map (fun p => (p.1, p.2, (0 : ℚ))) ++
        (transformCoords pts).map (fun p => (p.1, p.2, h)) ∧
    (extrudeContour pts h).faces =
      (sideFaces pts.length ++ wrapFaces pts.length) ++
        (bottomCapFaces pts.length ++ topCapFaces pts.length) ∧
    sideFaces pts.length ++ wrapFaces pts.length = sideLoopFaces pts.length ∧
    (sideFaces pts.length ++ wrapFaces pts.length).length = 2 * pts.length := by
  refine ⟨rfl, ?_, side_wrap_eq _ (by omega), ?_⟩
  · simp [extrudeContour, transformCoords_length, List.append_assoc]
  · rw [side_wrap_eq _ (by omega)]
    exact flatMap_pair_length pts.length _ _

theorem extrude_rings_and_side_faces_witness :
    3 ≤ ([((0 : ℚ), (0 : ℚ)), (0, 3), (3, 0)] : List Point).length ∧
    sideFaces 3 ++ wrapFaces 3 = sideLoopFaces 3 ∧
    (sideFaces 3 ++ wrapFaces 3).length = 2 * 3 := by
  have h := extrude_rings_and_side_faces [((0 : ℚ), (0 : ℚ)), (0, 3), (3, 0)] 5 (by decide)
  exact ⟨by decide, by simpa using h.2.2.1, by simpa using h.2.2.2⟩

/-- C6: extraction of an empty contour list returns the empty polyline;
whenever the extracted contour has fewer than 3 points, mesh creation
returns no mesh, and the per-variant loop records the warned FAILED
outcome for every variant and keeps going: it still produces one
outcome per variant, raising nothing. -/
theorem insufficient_points_skipped (cs : List (List Point)) (t : ℚ)
    (dir letter : String) (excExport : String → Option String)
    (hshort : (extractContour cs).length < 3) :
    extractContour ([] : List (List Point)) = [] ∧
    createLetterMesh cs t = none ∧
    (runVariants dir letter cs (fun _ => none) excExport).1 =
      [Outcome.failed, Outcome.failed, Outcome.failed, Outcome.failed] := by
  have hmesh : ∀ th : ℚ, createLetterMesh cs th = none := fun th => by
    simp [createLetterMesh, hshort]
  refine ⟨rfl, hmesh t, ?_⟩
  simp [runVariants, VARIANTS, processVariant, hmesh, okPath]

theorem insufficient_points_skipped_witness :
    (extractContour ([] : List (List Point))).length < 3 ∧
    createLetterMesh ([] : List (List Point)) 1 = none ∧
    (runVariants "Centria_3D_Models/Letters_Library" "A" ([] : List (List Point))
        (fun _ => none) (fun _ => none)).1 =
      [Outcome.failed, Outcome.failed, Outcome.failed, Outcome.failed] := by
  have h := insufficient_points_skipped ([] : List (List Point)) 1
    "Centria_3D_Models/Letters_Library" "A" (fun _ => none) (by decide)
  exact ⟨by decide, h.2.1, h.2.2⟩

/-- C7: every (letter, variant) iteration yields exactly one recorded
outcome, whatever exceptions the mesh build or export oracles raise:
the outcome list is the variant table mapped through the per-variant
body (so an error in one pair never stops the batch), and the files on
disk at the end are exactly the successfully exported paths, in order
(caught errors neither remove nor roll back earlier writes). -/
theorem variant_errors_isolated (dir letter : String) (cs : List (List Point))
    (em : ℚ → Option String) (ee : String → Option String) :
    (runVariants dir letter cs em ee).1 =
      VARIANTS.map (processVariant dir letter cs em ee) ∧
    (runVariants dir letter cs em ee).1.length = VARIANTS.length ∧
    (runVariants dir letter cs em ee).2 =
      (runVariants dir letter cs em ee).1.filterMap okPath := by
  have h := foldl_outcome_acc (processVariant dir letter cs em ee) VARIANTS [] []
  have hr : runVariants dir letter cs em ee =
      (VARIANTS.map (processVariant dir letter cs em ee),
        (VARIANTS.map (processVariant dir letter cs em ee)).filterMap okPath) := by
    rw [runVariants]
    rw [h]
    simp
  rw [hr]
  simp

/-- C8: a successful iteration exports to exactly
dir/variant/Letter_letter_variant.stl; the default output root is
Centria_3D_Models/Letters_Library, the constructor creates one
subdirectory per variant under it, and letter A in variant pin goes to
Centria_3D_Models/Letters_Library/pin/Letter_A_pin.stl. -/
theorem output_path_layout :
    (∀ (dir letter : String) (cs : List (List Point)) (em : ℚ → Option String)
      (ee : String → Option String) (v : String × ℚ),
      em v.2 = none → ee (outputFile dir v.1 letter) = none →
      3 ≤ (extractContour cs).length →
      processVariant dir letter cs em ee v = Outcome.ok (outputFile dir v.1 letter)) ∧
    outputFile defaultOutputDir "pin" "A" =
      "Centria_3D_Models/Letters_Library/pin/Letter_A_pin.stl" ∧
    createdDirs defaultOutputDir =
      ["Centria_3D_Models/Letters_Library",
        "Centria_3D_Models/Letters_Library/pin",
        "Centria_3D_Models/Letters_Library/magnet",
        "Centria_3D_Models/Letters_Library/keyring",
        "Centria_3D_Models/Letters_Library/cake_mould"] := by
  refine ⟨?_, rfl, rfl⟩
  intro dir letter cs em ee v hm he hlen
  have hnotlt : ¬ (extractContour cs).length < 3 := by omega
  simp [processVariant, createLetterMesh, hm, he, hnotlt]

theorem output_path_layout_witness :
    (fun _ : ℚ => (none : Option String)) ((7 : ℚ) / 2) = none ∧
    3 ≤ (extractContour [[((0 : ℚ), (0 : ℚ)), (0, 3), (3, 0)]]).length ∧
    processVariant defaultOutputDir "A" [[((0 : ℚ), (0 : ℚ)), (0, 3), (3, 0)]]
        (fun _ => none) (fun _ => none) ("pin", 7 / 2) =
      Outcome.ok "Centria_3D_Models/Letters_Library/pin/Letter_A_pin.stl" := by
  have h := output_path_layout.1 defaultOutputDir "A"
    [[((0 : ℚ), (0 : ℚ)), (0, 3), (3, 0)]] (fun _ => none) (fun _ => none)
    ("pin", 7 / 2) rfl rfl (by decide)
  exact ⟨rfl, by decide, h⟩

/-- C9: the modelled pipeline is a pure function of its inputs: two runs
of contour extraction, extrusion and mesh creation on equal contour
lists and equal heights produce equal downsampled polylines, equal
meshes, and equal optional results. -/
theorem pipeline_deterministic (cs cs' : List (List Point)) (h h' : ℚ)
    (hcs : cs = cs') (hh : h = h') :
    extractContour cs = extractContour cs' ∧
    extrudeContour (extractContour cs) h = extrudeContour (extractContour cs') h' ∧
    createLetterMesh cs h = createLetterMesh cs' h' := by
  subst hcs
  subst hh
  exact ⟨rfl, rfl, rfl⟩

theorem pipeline_deterministic_witness :
    createLetterMesh [[((0 : ℚ), (0 : ℚ)), (0, 3), (3, 0)]] 5 =
      createLetterMesh [[((0 : ℚ), (0 : ℚ)), (0, 3), (3, 0)]] 5 :=
  (pipeline_deterministic [[((0 : ℚ), (0 : ℚ)), (0, 3), (3, 0)]]
    [[((0 : ℚ), (0 : ℚ)), (0, 3), (3, 0)]] 5 5 rfl rfl).2.2

/-- C10: for n >= 3 input points the extruder constructs exactly
4 * n - 4 faces (2 * n side-wall triangles plus n - 2 per cap), and
every index of every constructed face triple is a valid vertex index,
below 2 * n. -/
theorem face_indices_in_range (pts : List Point) (h : ℚ) (hn : 3 ≤ pts.length) :
    (extrudeContour pts h).faces.length = 4 * pts.length - 4 ∧
    ∀ f ∈ (extrudeContour pts h).faces,
      f.1 < 2 * pts.length ∧ f.2.1 < 2 * pts.length ∧ f.2.2 < 2 * pts.length := by
  set n := pts.length with hdef
  have hfaces : (extrudeContour pts h).faces =
      sideFaces n ++ wrapFaces n ++ bottomCapFaces n ++ topCapFaces n := by
    simp [extrudeContour, transformCoords_length]
  rw [hfaces]
  constructor
  · have hside : (sideFaces n).length = 2 * (n - 1) := flatMap_pair_length (n - 1) _ _
    simp only [List.length_append, hside, wrapFaces, bottomCapFaces, topCapFaces,
      List.length_map, List.length_range, List.length_cons, List.length_nil]
    omega
  · intro f hf
    simp only [List.mem_append] at hf
    rcases hf with ((hf | hf) | hf) | hf
    · simp only [sideFaces, List.mem_flatMap, List.mem_range, List.mem_cons,
        List.mem_singleton, List.not_mem_nil, or_false] at hf
      obtain ⟨i, hi, hf | hf⟩ := hf <;> subst hf <;> refine ⟨?_, ?_, ?_⟩ <;>
        simp only [] <;> omega
    · simp only [wrapFaces, List.mem_cons, List.mem_singleton, List.not_mem_nil,
        or_false] at hf
      rcases hf with hf | hf <;> subst hf <;> refine ⟨?_, ?_, ?_⟩ <;>
        simp only [] <;> omega
    · simp only [bottomCapFaces, List.mem_map, List.mem_range] at hf
      obtain ⟨j, hj, hf⟩ := hf
      subst hf
      refine ⟨?_, ?_, ?_⟩ <;> simp only [] <;> omega
    · simp only [topCapFaces, List.mem_map, List.mem_range] at hf
      obtain ⟨j, hj, hf⟩ := hf
      subst hf
      refine ⟨?_, ?_, ?_⟩ <;> simp only [] <;> omega

theorem face_indices_in_range_witness :
    3 ≤ ([((0 : ℚ), (0 : ℚ)), (0, 3), (3, 0)] : List Point).length ∧
    (extrudeContour [((0 : ℚ), (0 : ℚ)), (0, 3), (3, 0)] 5).faces.length = 4 * 3 - 4 := by
  have h := (face_indices_in_range [((0 : ℚ), (0 : ℚ)), (0, 3), (3, 0)] 5 (by decide)).1
  exact ⟨by decide, by simpa using h⟩

end LetterGen
